import Mathlib

/-!
Verification of the error-handling demo: a shallow embedding of the
fetch/retry hook (useFetchData.js), the crash boundary (ErrorBoundary.jsx)
and the registration form logic (UserRegistrationForm.jsx), with theorems
settling the specification's claims about them.
-/

namespace ErrorHandling

/-! ## The fetch/retry hook (src/hooks/useFetchData.js)

The hook keeps four pieces of React state: `data` (initially null),
`loading` (initially true), `error` (initially null) and `reloadFlag`
(initially 0).  `refetch` increments `reloadFlag`.  An effect keyed on
`[url, reloadFlag]` sets `loading := true`, `error := null`, issues a
fetch and applies the settled result only if its own `ignore` flag is
still false; the cleanup of the effect sets `ignore := true`, so a
completion is applied exactly when no newer effect run has started.
We embed the hook as an explicit transition system: `runGen` counts the
effect runs (the closure identity that the `ignore` flag tracks), and
`issued` is the history of operations handed to the network, as
`(url, run generation)` pairs. -/

/-- Decoded JSON payload as a flat object (association list of fields).
The hook treats the decoded body opaquely, so this concrete choice is
only used to write scenarios down. -/
abbrev Payload := List (String × String)

/-- The body of an HTTP response as `res.json()` sees it: either a
decodable payload or an undecodable body carrying a parse-error message. -/
inductive Body where
  | decodable (payload : Payload)
  | undecodable (msg : String)
deriving DecidableEq

/-- How one `fetch(url)` settles: a rejected promise (network error), or a
response with a status code and a body. -/
inductive FetchResult where
  | networkError (msg : String)
  | response (status : Nat) (body : Body)
deriving DecidableEq

/-- `res.ok`: the status code lies in the 2xx range (200..299). -/
def resOk (status : Nat) : Bool := 200 ≤ status && status ≤ 299

/-- The promise chain of the effect body:
`fetch(url).then(res => { if (!res.ok) throw new Error(`HTTP ${res.status}`); return res.json(); })`.
A non-ok status throws before the body is decoded; an ok status decodes the
body, which may itself fail; the `.catch` captures the error message. -/
def settle : FetchResult → Except String Payload
  | .networkError msg => .error msg
  | .response st body =>
    if resOk st then
      match body with
      | .decodable p => .ok p
      | .undecodable msg => .error msg
    else .error ("HTTP " ++ toString st)

/-- The state of one mounted `useFetchData(url)` instance.  `data`,
`loading`, `error` and `reloadFlag` are the four `useState` cells; `url`
is the current prop; `runGen` counts effect runs (the generation whose
completion is still applied); `issued` records every operation handed to
the network as a `(url, generation)` pair. -/
structure HookState where
  data : Option Payload
  loading : Bool
  error : Option String
  reloadFlag : Nat
  url : String
  runGen : Nat
  issued : List (String × Nat)
deriving DecidableEq

/-- One run of the effect body, exactly in source order:
`setLoading(true); setError(null); fetch(url)...`.  A fresh run
supersedes all previous ones (their cleanup set `ignore := true`),
embedded by bumping `runGen`; the fetch for the current `url` is issued
under the fresh generation.  `data` is *not* touched here. -/
def startEffect (s : HookState) : HookState :=
  { s with loading := true, error := none,
           runGen := s.runGen + 1,
           issued := s.issued ++ [(s.url, s.runGen + 1)] }

/-- The state after mounting `useFetchData url`: the `useState`
initialisers (`data = null`, `loading = true`, `error = null`,
`reloadFlag = 0`) followed by the first effect run. -/
def initState (url : String) : HookState :=
  startEffect
    { data := none, loading := true, error := none,
      reloadFlag := 0, url := url, runGen := 0, issued := [] }

/-- Applying a settled fetch whose `ignore` flag is still false:
success runs `setData(data)`, failure runs `setError(err)`, and the
`.finally` runs `setLoading(false)` either way.  `data` is left alone on
failure and `error` is left alone on success. -/
def applyResult (r : FetchResult) (s : HookState) : HookState :=
  match settle r with
  | .ok p => { s with data := some p, loading := false }
  | .error m => { s with error := some m, loading := false }

/-- The events a mounted hook instance can observe. -/
inductive Event where
  /-- A re-render with unchanged props: the effect dependencies
  `[url, reloadFlag]` are unchanged, so the effect does not re-run. -/
  | rerender
  /-- The `url` prop changes (a key change).  If it is in fact equal to
  the current one the dependencies are unchanged and nothing happens. -/
  | setUrl (u : String)
  /-- `refetch()`: `setReloadFlag(f => f + 1)`, which changes the effect
  dependencies and re-runs the effect. -/
  | refetch
  /-- The operation issued by effect run `g` settles with result `r`.
  The closure applies it only if its `ignore` flag is still false,
  i.e. only if no newer effect run has started since. -/
  | complete (g : Nat) (r : FetchResult)
deriving DecidableEq

/-- The transition function of the hook. -/
def step (e : Event) (s : HookState) : HookState :=
  match e with
  | .rerender => s
  | .setUrl u => if u = s.url then s else startEffect { s with url := u }
  | .refetch => startEffect { s with reloadFlag := s.reloadFlag + 1 }
  | .complete g r => if g = s.runGen then applyResult r s else s

/-- The state reached from mounting `useFetchData url` and then observing
the events of `t` in order. -/
def reach (url : String) (t : List Event) : HookState :=
  t.foldl (fun s e => step e s) (initState url)

/-- The abstract status of the resource. -/
inductive Status where
  | Idle
  | Pending
  | Succeeded
  | Failed
deriving DecidableEq

/-- The status a consumer observes, with the priority the demo's consumer
(UserProfile.jsx) uses: `loading` first, then `error`, then `data`,
otherwise nothing. -/
def statusOf (s : HookState) : Status :=
  if s.loading then .Pending
  else if s.error.isSome then .Failed
  else if s.data.isSome then .Succeeded
  else .Idle

/-! ## The crash boundary (src/components/ErrorBoundary.jsx) -/

/-- The state of an `ErrorBoundary` instance:
`{ hasError: false, error: null, info: null }` initially. -/
structure GuardState where
  hasError : Bool
  error : Option String
  info : Option String
deriving DecidableEq

/-- The constructor's initial state. -/
def guardInit : GuardState :=
  { hasError := false, error := none, info := none }

/-- `static getDerivedStateFromError(error)` returns the partial update
`{ hasError: true, error }`, which React merges into the state. -/
def getDerivedStateFromError (err : String) (s : GuardState) : GuardState :=
  { s with hasError := true, error := some err }

/-- `componentDidCatch(error, info)` runs `this.setState({ info })`. -/
def componentDidCatch (stack : String) (s : GuardState) : GuardState :=
  { s with info := some stack }

/-- What one render pass of the boundary produces: either the fallback
block (showing the captured error message) or the wrapped children. -/
inductive Rendered (α : Type) where
  | fallback (msg : Option String)
  | subtree (c : α)
deriving DecidableEq

/-- The `render()` method itself: if `hasError` show the fallback with the
captured message, else return `this.props.children` unchanged. -/
def render (s : GuardState) (children : α) : Rendered α :=
  if s.hasError then .fallback s.error else .subtree children

/-- One guarded render pass as the React runtime performs it.  `child` is
how producing the wrapped subtree would go (a value, or a thrown crash
signal) and `stack` the component stack React would report.  When
`hasError` is already set, `render()` returns the fallback and the
subtree producer is never invoked (third component `false`).  Otherwise
the subtree is invoked; if it throws, React calls
`getDerivedStateFromError` and `componentDidCatch` and re-renders, which
now yields the fallback. -/
def renderPass (s : GuardState) (child : Except String α) (stack : String) :
    GuardState × Rendered α × Bool :=
  if s.hasError then (s, .fallback s.error, false)
  else
    match child with
    | .ok v => (s, .subtree v, true)
    | .error m =>
      let s1 := componentDidCatch stack (getDerivedStateFromError m s)
      (s1, .fallback s1.error, true)

/-- A sequence of guarded render passes, returning the final state and,
for each pass, what was produced and whether the subtree was invoked. -/
def renderMany (s : GuardState) :
    List (Except String α × String) → GuardState × List (Rendered α × Bool)
  | [] => (s, [])
  | x :: rest =>
    let r := renderPass s x.1 x.2
    let rr := renderMany r.1 rest
    (rr.1, (r.2.1, r.2.2) :: rr.2)

/-! ## The registration form (src/components/UserRegistrationForm.jsx) -/

/-- The three controlled field values (`values` state). -/
structure FormValues where
  username : String
  email : String
  password : String
deriving DecidableEq

/-- The field-level validation errors (`errors` state); a `none` field is
an absent key of the `errs` object. -/
structure FieldErrors where
  username : Option String
  email : Option String
  password : Option String
deriving DecidableEq

/-- Whether `/\S+@\S+\.\S+/.test(s)` holds: somewhere in `s` there is a
substring `A@B.C` with `A`, `B`, `C` nonempty runs of non-whitespace
characters.  Since `\S+` can always be shrunk to length one at the ends,
this holds exactly when there are positions `a < b` with `s[a] = '@'`,
`s[b] = '.'`, a non-whitespace character just before `a`, at least one
character strictly between `a` and `b`, all of them non-whitespace, and a
non-whitespace character just after `b`. -/
def emailTest (s : String) : Bool :=
  let cs := s.toList
  (List.range cs.length).any fun a =>
    (List.range cs.length).any fun b =>
      cs.getD a ' ' = '@' && cs.getD b ' ' = '.' &&
      1 ≤ a && a + 2 ≤ b && b + 1 < cs.length &&
      !(cs.getD (a - 1) ' ').isWhitespace &&
      ((List.range (b - a - 1)).all fun i => !(cs.getD (a + 1 + i) ' ').isWhitespace) &&
      !(cs.getD (b + 1) ' ').isWhitespace

/-- `validate()`: username required (JS falsiness of a string is emptiness),
email nonempty and matching the pattern, password nonempty and at least 6
characters. -/
def validate (v : FormValues) : FieldErrors :=
  { username := if v.username = "" then some "Username required" else none,
    email := if v.email = "" || !emailTest v.email then some "Valid email required" else none,
    password := if v.password = "" || v.password.length < 6 then some "Password too short" else none }

/-- `Object.keys(errs).length` is nonzero: some field error was assigned. -/
def hasErrors (e : FieldErrors) : Bool :=
  e.username.isSome || e.email.isSome || e.password.isSome

/-- A simulated server response: a status code, the `message` field of the
failure branches, and the `user` field of the success branch. -/
structure RegResponse where
  status : Nat
  message : Option String
  user : Option (String × String)
deriving DecidableEq

/-- `fakeRegister` (without the simulated delay, which the caller awaits):
missing fields give 400, the two magic usernames give 400 and 500, and
everything else registers. -/
def fakeRegister (v : FormValues) : RegResponse :=
  if v.username = "" || v.email = "" || v.password = "" then
    { status := 400, message := some "All fields required.", user := none }
  else if v.username = "testfail" then
    { status := 400, message := some "Username not allowed.", user := none }
  else if v.username = "serverfail" then
    { status := 500, message := some "Server error. Try again.", user := none }
  else
    { status := 200, message := none, user := some (v.username, v.email) }

/-- The component state `handleSubmit` touches. -/
structure FormState where
  values : FormValues
  errors : FieldErrors
  serverError : Option String
  success : Bool
  submitting : Bool
deriving DecidableEq

/-- `handleSubmit`, from validation up to the final `setState`s; the
returned boolean records whether `fakeRegister` was called.  When
validation finds errors it records them and returns at once.  Otherwise
the submit sequence runs to completion: `submitting` is set and reset
around the await, and the response either sets `serverError` or sets
`success` and clears the fields. -/
def handleSubmit (s : FormState) : FormState × Bool :=
  let errs := validate s.values
  if hasErrors errs then
    ({ s with errors := errs }, false)
  else
    let resp := fakeRegister s.values
    if resp.status ≠ 200 then
      ({ s with submitting := false, serverError := resp.message, success := false }, true)
    else
      ({ s with submitting := false, serverError := none, success := true,
                values := { username := "", email := "", password := "" } }, true)

/-- The initial state of the registration form component: empty fields,
no errors, no server error, not successful, not submitting. -/
def blankForm : FormState :=
  { values := { username := "", email := "", password := "" },
    errors := { username := none, email := none, password := none },
    serverError := none, success := false, submitting := false }

/-! ## Auxiliary vocabulary for stating claims -/

/-- `sub` occurs contiguously in `s`: the character-level substring test
(used to state that a failure message contains a status code). -/
def containsSub (s sub : String) : Bool :=
  (List.range (s.toList.length + 1)).any fun i =>
    sub.toList.isPrefixOf (s.toList.drop i)

/-- The amended failure criterion, following the spec's words as the code
forces them to be corrected: a fetch signals failure on a thrown/rejected
network error, on a response status outside the 2xx range (`res.ok`
false, which is wider than "≥ 400"), or on an ok response whose body
fails to decode. -/
def specFailsAmended : FetchResult → Bool
  | .networkError _ => true
  | .response st b =>
    if resOk st then
      match b with
      | .decodable _ => false
      | .undecodable _ => true
    else true

/-! ## Invariants of the hook's transition system -/

/-- While `loading` is set, the `setError(null)` of the current effect run
is still the last write to `error`: no completion for the current run has
been applied yet. -/
def LoadingClean (s : HookState) : Prop := s.loading = true → s.error = none

/-- The generations of the issued operations are strictly increasing and
bounded by the current run generation. -/
def IssuedOrdered (s : HookState) : Prop :=
  (s.issued.map Prod.snd).Pairwise (· < ·) ∧ ∀ p ∈ s.issued, p.2 ≤ s.runGen

/-- The most recently issued operation is the one for the current `url`
and the current run generation. -/
def CurrentIssued (s : HookState) : Prop :=
  s.issued.getLast? = some (s.url, s.runGen)

/-- In every reachable state either a fetch is in flight (`loading`), or a
completion has populated `error` or `data`; hence `Idle` is never
observed. -/
def NeverIdle (s : HookState) : Prop :=
  s.loading = true ∨ s.error.isSome = true ∨ s.data.isSome = true

theorem loadingClean_startEffect (s : HookState) : LoadingClean (startEffect s) := by
  intro _
  rfl

theorem loadingClean_step (e : Event) (s : HookState) (h : LoadingClean s) :
    LoadingClean (step e s) := by
  cases e with
  | rerender => exact h
  | setUrl u =>
    simp only [step]
    split
    · exact h
    · exact loadingClean_startEffect _
  | refetch => exact loadingClean_startEffect _
  | complete g r =>
    simp only [step]
    split
    · cases hs : settle r <;> simp only [applyResult, hs] <;> intro hl <;> simp at hl
    · exact h

theorem loadingClean_foldl (t : List Event) (s : HookState) (h : LoadingClean s) :
    LoadingClean (t.foldl (fun s e => step e s) s) := by
  induction t generalizing s with
  | nil => exact h
  | cons e rest ih => exact ih _ (loadingClean_step e s h)

theorem loadingClean_reach (url : String) (t : List Event) : LoadingClean (reach url t) :=
  loadingClean_foldl t _ (loadingClean_startEffect _)

theorem issuedOrdered_startEffect (s : HookState) (h : IssuedOrdered s) :
    IssuedOrdered (startEffect s) := by
  obtain ⟨h1, h2⟩ := h
  constructor
  · simp only [startEffect, List.map_append, List.map_cons, List.map_nil]
    rw [List.pairwise_append]
    refine ⟨h1, List.pairwise_singleton _ _, ?_⟩
    intro a ha b hb
    simp only [List.mem_singleton] at hb
    subst hb
    simp only [List.mem_map] at ha
    obtain ⟨p, hp, rfl⟩ := ha
    exact Nat.lt_succ_of_le (h2 p hp)
  · intro p hp
    simp only [startEffect, List.mem_append, List.mem_singleton] at hp
    rcases hp with hp | hp
    · exact Nat.le_succ_of_le (h2 p hp)
    · subst hp
      exact le_refl _

theorem issuedOrdered_step (e : Event) (s : HookState) (h : IssuedOrdered s) :
    IssuedOrdered (step e s) := by
  cases e with
  | rerender => exact h
  | setUrl u =>
    simp only [step]
    split
    · exact h
    · exact issuedOrdered_startEffect _ ⟨h.1, h.2⟩
  | refetch => exact issuedOrdered_startEffect _ ⟨h.1, h.2⟩
  | complete g r =>
    simp only [step]
    split
    · cases hs : settle r <;> simp only [applyResult, hs] <;> exact ⟨h.1, h.2⟩
    · exact h

theorem issuedOrdered_foldl (t : List Event) (s : HookState) (h : IssuedOrdered s) :
    IssuedOrdered (t.foldl (fun s e => step e s) s) := by
  induction t generalizing s with
  | nil => exact h
  | cons e rest ih => exact ih _ (issuedOrdered_step e s h)

theorem issuedOrdered_init (url : String) : IssuedOrdered (initState url) := by
  constructor
  · simp [initState, startEffect]
  · intro p hp
    simp only [initState, startEffect, List.nil_append, List.mem_singleton] at hp
    subst hp
    exact le_refl _

theorem issuedOrdered_reach (url : String) (t : List Event) : IssuedOrdered (reach url t) :=
  issuedOrdered_foldl t _ (issuedOrdered_init url)

theorem currentIssued_startEffect (s : HookState) : CurrentIssued (startEffect s) := by
  unfold CurrentIssued startEffect
  simp

theorem currentIssued_step (e : Event) (s : HookState) (h : CurrentIssued s) :
    CurrentIssued (step e s) := by
  cases e with
  | rerender => exact h
  | setUrl u =>
    simp only [step]
    split
    · exact h
    · exact currentIssued_startEffect _
  | refetch => exact currentIssued_startEffect _
  | complete g r =>
    simp only [step]
    split
    · cases hs : settle r <;> simp only [applyResult, hs] <;> exact h
    · exact h

theorem currentIssued_foldl (t : List Event) (s : HookState) (h : CurrentIssued s) :
    CurrentIssued (t.foldl (fun s e => step e s) s) := by
  induction t generalizing s with
  | nil => exact h
  | cons e rest ih => exact ih _ (currentIssued_step e s h)

theorem currentIssued_reach (url : String) (t : List Event) : CurrentIssued (reach url t) :=
  currentIssued_foldl t _ (currentIssued_startEffect _)

theorem neverIdle_startEffect (s : HookState) : NeverIdle (startEffect s) :=
  Or.inl rfl

theorem neverIdle_step (e : Event) (s : HookState) (h : NeverIdle s) :
    NeverIdle (step e s) := by
  cases e with
  | rerender => exact h
  | setUrl u =>
    simp only [step]
    split
    · exact h
    · exact Or.inl rfl
  | refetch => exact Or.inl rfl
  | complete g r =>
    simp only [step]
    split
    · cases hs : settle r with
      | ok p => exact Or.inr (Or.inr (by simp [applyResult, hs]))
      | error m => exact Or.inr (Or.inl (by simp [applyResult, hs]))
    · exact h

theorem neverIdle_foldl (t : List Event) (s : HookState) (h : NeverIdle s) :
    NeverIdle (t.foldl (fun s e => step e s) s) := by
  induction t generalizing s with
  | nil => exact h
  | cons e rest ih => exact ih _ (neverIdle_step e s h)

theorem neverIdle_reach (url : String) (t : List Event) : NeverIdle (reach url t) :=
  neverIdle_foldl t _ (neverIdle_startEffect _)

theorem statusOf_ne_idle (s : HookState) (h : NeverIdle s) :
    statusOf s ≠ .Idle := by
  unfold statusOf
  by_cases hl : s.loading = true
  · simp [hl]
  · rw [Bool.not_eq_true] at hl
    rcases h with h | h | h
    · rw [hl] at h
      simp at h
    · simp [hl, h]
    · by_cases he : s.error.isSome = true
      · simp [hl, he]
      · rw [Bool.not_eq_true] at he
        simp [hl, he, h]

/-! ## Claims about the hook -/

/-- **C1.** A completion belonging to a generation older than the current
one is discarded without mutating any state, and the current generation is
both an upper bound of all issued generations and the generation of the
most recently issued operation: only the result matching the highest
issued generation can ever be reflected in `status`/`value`/`failure`. -/
theorem stale_completion_discarded (url : String) (t : List Event)
    (g : Nat) (r : FetchResult) (h : g < (reach url t).runGen) :
    step (.complete g r) (reach url t) = reach url t ∧
    ((reach url t).issued.map Prod.snd).all (· ≤ (reach url t).runGen) ∧
    (reach url t).issued.getLast? = some ((reach url t).url, (reach url t).runGen) := by
  refine ⟨?_, ?_, currentIssued_reach url t⟩
  · simp only [step]
    rw [if_neg (Nat.ne_of_lt h)]
  · rw [List.all_eq_true]
    intro g' hg'
    simp only [List.mem_map] at hg'
    obtain ⟨p, hp, rfl⟩ := hg'
    exact decide_eq_true ((issuedOrdered_reach url t).2 p hp)

/-- Witness for C1: after one `refetch` the current generation is 2 and a
late completion of generation 1 is discarded unchanged. -/
theorem stale_completion_discarded_witness :
    1 < (reach "users/1" [Event.refetch]).runGen ∧
    (step (Event.complete 1 (FetchResult.networkError "late"))
        (reach "users/1" [Event.refetch]) = reach "users/1" [Event.refetch] ∧
     ((reach "users/1" [Event.refetch]).issued.map Prod.snd).all
        (· ≤ (reach "users/1" [Event.refetch]).runGen) ∧
     (reach "users/1" [Event.refetch]).issued.getLast? =
        some ((reach "users/1" [Event.refetch]).url, (reach "users/1" [Event.refetch]).runGen)) :=
  ⟨by decide, stale_completion_discarded "users/1" [Event.refetch] 1
      (FetchResult.networkError "late") (by decide)⟩

theorem step_mono (e : Event) (s : HookState) :
    s.reloadFlag ≤ (step e s).reloadFlag ∧ s.runGen ≤ (step e s).runGen := by
  cases e with
  | rerender => exact ⟨le_refl _, le_refl _⟩
  | setUrl u =>
    simp only [step]
    split
    · exact ⟨le_refl _, le_refl _⟩
    · exact ⟨le_refl _, Nat.le_succ _⟩
  | refetch => exact ⟨Nat.le_succ _, Nat.le_succ _⟩
  | complete g r =>
    simp only [step]
    split
    · cases hs : settle r <;> simp only [applyResult, hs] <;> exact ⟨le_refl _, le_refl _⟩
    · exact ⟨le_refl _, le_refl _⟩

theorem foldl_mono (t : List Event) (s : HookState) :
    s.reloadFlag ≤ (t.foldl (fun s e => step e s) s).reloadFlag ∧
    s.runGen ≤ (t.foldl (fun s e => step e s) s).runGen := by
  induction t generalizing s with
  | nil => exact ⟨le_refl _, le_refl _⟩
  | cons e rest ih =>
    exact ⟨le_trans (step_mono e s).1 (ih (step e s)).1,
           le_trans (step_mono e s).2 (ih (step e s)).2⟩

/-- **C5.** `refetch()` increments `reloadFlag`, produces a strictly larger
run generation, keeps the current key, issues a new operation for it and
transitions the status to `Pending`; both counters are monotone under
every event and hence across the whole lifetime of the resource. -/
theorem refetch_fresh_generation (url : String) (t t' : List Event)
    (s : HookState) (e : Event) :
    (step .refetch s).reloadFlag = s.reloadFlag + 1 ∧
    s.runGen < (step .refetch s).runGen ∧
    statusOf (step .refetch s) = .Pending ∧
    (step .refetch s).url = s.url ∧
    (step .refetch s).issued = s.issued ++ [(s.url, s.runGen + 1)] ∧
    s.reloadFlag ≤ (step e s).reloadFlag ∧
    s.runGen ≤ (step e s).runGen ∧
    (reach url t).reloadFlag ≤ (reach url (t ++ t')).reloadFlag ∧
    (reach url t).runGen ≤ (reach url (t ++ t')).runGen := by
  have hm := step_mono e s
  have ht : reach url (t ++ t') = t'.foldl (fun s e => step e s) (reach url t) := by
    unfold reach
    rw [List.foldl_append]
  refine ⟨rfl, Nat.lt_succ_self _, rfl, rfl, rfl, hm.1, hm.2, ?_, ?_⟩
  · rw [ht]
    exact (foldl_mono t' _).1
  · rw [ht]
    exact (foldl_mono t' _).2

/-- **C6.** A re-render with unchanged props runs no effect, requesting the
unchanged key starts nothing new, and the issued-operations history never
contains a duplicate `(key, generation)` pair: exactly one operation is
issued per `(key, generation)`. -/
theorem single_flight_per_generation (url : String) (t : List Event) (u : String)
    (h : u = (reach url t).url) :
    step .rerender (reach url t) = reach url t ∧
    step (.setUrl u) (reach url t) = reach url t ∧
    (reach url t).issued.Nodup := by
  refine ⟨rfl, ?_, ?_⟩
  · simp only [step]
    rw [if_pos h]
  · have h1 := (issuedOrdered_reach url t).1
    exact List.Nodup.of_map Prod.snd (h1.imp fun hlt => Nat.ne_of_lt hlt)

/-- Witness for C6: a second request for the mounted key issues nothing. -/
theorem single_flight_per_generation_witness :
    ("users/1" = (reach "users/1" []).url) ∧
    (step Event.rerender (reach "users/1" []) = reach "users/1" [] ∧
     step (Event.setUrl "users/1") (reach "users/1" []) = reach "users/1" [] ∧
     (reach "users/1" []).issued.Nodup) :=
  ⟨rfl, single_flight_per_generation "users/1" [] "users/1" rfl⟩

/-! ## Helper lemmas about completions -/

theorem applyResult_ok (s : HookState) (r : FetchResult) (p : Payload)
    (herr : s.error = none) (hr : settle r = .ok p) :
    statusOf (applyResult r s) = .Succeeded ∧
    (applyResult r s).data = some p ∧
    (applyResult r s).error = none := by
  simp only [applyResult, hr]
  simp [statusOf, herr]

theorem applyResult_err (s : HookState) (r : FetchResult) (m : String)
    (hr : settle r = .error m) :
    statusOf (applyResult r s) = .Failed ∧
    (applyResult r s).data = s.data ∧
    (applyResult r s).error = some m := by
  simp only [applyResult, hr]
  simp [statusOf]

theorem isPrefixOf_self {α : Type} [BEq α] [LawfulBEq α] (l : List α) :
    l.isPrefixOf l = true := by
  induction l with
  | nil => rfl
  | cons a l ih => simp [List.isPrefixOf, ih]

theorem containsSub_append (a b : String) : containsSub (a ++ b) b = true := by
  unfold containsSub
  rw [List.any_eq_true]
  refine ⟨a.toList.length, ?_, ?_⟩
  · rw [List.mem_range]
    have h : (a ++ b).toList = a.toList ++ b.toList := String.data_append a b
    rw [h, List.length_append]
    omega
  · have h : (a ++ b).toList = a.toList ++ b.toList := String.data_append a b
    rw [h, List.drop_left]
    exact isPrefixOf_self _

/-! ## Claims about completion handling -/

/-- **C2 (counterexample).** After a success, a retried fetch that fails
leaves the old value in place next to the new failure: in the reached
state both `value` and `failure` are populated at once, and the status is
`Failed` while `value` is still present. -/
theorem value_and_failure_both_populated :
    (reach "users/1"
        [Event.complete 1 (FetchResult.response 200 (Body.decodable [("name", "Ann")])),
         Event.refetch,
         Event.complete 2 (FetchResult.networkError "network down")]).data
      = some [("name", "Ann")] ∧
    (reach "users/1"
        [Event.complete 1 (FetchResult.response 200 (Body.decodable [("name", "Ann")])),
         Event.refetch,
         Event.complete 2 (FetchResult.networkError "network down")]).error
      = some "network down" ∧
    statusOf (reach "users/1"
        [Event.complete 1 (FetchResult.response 200 (Body.decodable [("name", "Ann")])),
         Event.refetch,
         Event.complete 2 (FetchResult.networkError "network down")])
      = Status.Failed := by
  exact ⟨rfl, rfl, rfl⟩

/-- **C2 (amended).** Starting a new fetch (retry or key change) — from
any state, in particular a `Failed` one whose failure is populated —
clears the prior failure but retains the prior value; a
current-generation success completion reaches `Succeeded` with no failure
present; a current-generation failure completion reaches `Failed` but
retains the prior value, so `value` and `failure` are not mutually
exclusive. -/
theorem value_failure_exclusion_amended (url : String) (t : List Event)
    (s : HookState) (u : String) (g : Nat) (r1 r2 : FetchResult)
    (p : Payload) (m : String)
    (hload : (reach url t).loading = true) (hg : g = (reach url t).runGen)
    (hu : u ≠ s.url) (h1 : settle r1 = .ok p) (h2 : settle r2 = .error m) :
    ((step .refetch s).error = none ∧
     (step .refetch s).data = s.data) ∧
    ((step (.setUrl u) s).error = none ∧
     (step (.setUrl u) s).data = s.data) ∧
    (statusOf (step (.complete g r1) (reach url t)) = .Succeeded ∧
     (step (.complete g r1) (reach url t)).error = none) ∧
    (statusOf (step (.complete g r2) (reach url t)) = .Failed ∧
     (step (.complete g r2) (reach url t)).data = (reach url t).data) := by
  have herr : (reach url t).error = none := loadingClean_reach url t hload
  have hstep1 : step (.complete g r1) (reach url t) = applyResult r1 (reach url t) := by
    simp only [step]
    rw [if_pos hg]
  have hstep2 : step (.complete g r2) (reach url t) = applyResult r2 (reach url t) := by
    simp only [step]
    rw [if_pos hg]
  refine ⟨⟨rfl, rfl⟩, ?_, ?_, ?_⟩
  · simp only [step]
    rw [if_neg hu]
    exact ⟨rfl, rfl⟩
  · rw [hstep1]
    have h := applyResult_ok (reach url t) r1 p herr h1
    exact ⟨h.1, h.2.2⟩
  · rw [hstep2]
    have h := applyResult_err (reach url t) r2 m h2
    exact ⟨h.1, h.2.1⟩

/-- Witness for the amended C2: retrying (or changing the key) from a
`Failed` state whose `error` is populated clears the failure while
keeping `data` untouched. -/
theorem value_failure_exclusion_amended_witness :
    ((reach "users/1" []).loading = true ∧ 1 = (reach "users/1" []).runGen ∧
     (reach "users/1" [Event.complete 1 (FetchResult.networkError "boom")]).error
       = some "boom" ∧
     "posts/1" ≠ (reach "users/1" [Event.complete 1 (FetchResult.networkError "boom")]).url ∧
     settle (FetchResult.response 200 (Body.decodable [("name", "Ann")])) =
       .ok [("name", "Ann")] ∧
     settle (FetchResult.networkError "down") = .error "down") ∧
    (((step .refetch (reach "users/1" [Event.complete 1 (FetchResult.networkError "boom")])).error = none ∧
      (step .refetch (reach "users/1" [Event.complete 1 (FetchResult.networkError "boom")])).data =
        (reach "users/1" [Event.complete 1 (FetchResult.networkError "boom")]).data) ∧
     ((step (.setUrl "posts/1") (reach "users/1" [Event.complete 1 (FetchResult.networkError "boom")])).error = none ∧
      (step (.setUrl "posts/1") (reach "users/1" [Event.complete 1 (FetchResult.networkError "boom")])).data =
        (reach "users/1" [Event.complete 1 (FetchResult.networkError "boom")]).data) ∧
     (statusOf (step (.complete 1 (FetchResult.response 200 (Body.decodable [("name", "Ann")])))
          (reach "users/1" [])) = .Succeeded ∧
      (step (.complete 1 (FetchResult.response 200 (Body.decodable [("name", "Ann")])))
          (reach "users/1" [])).error = none) ∧
     (statusOf (step (.complete 1 (FetchResult.networkError "down"))
          (reach "users/1" [])) = .Failed ∧
      (step (.complete 1 (FetchResult.networkError "down"))
          (reach "users/1" [])).data = (reach "users/1" []).data)) :=
  ⟨⟨rfl, rfl, rfl, by decide, rfl, rfl⟩,
   value_failure_exclusion_amended "users/1" []
     (reach "users/1" [Event.complete 1 (FetchResult.networkError "boom")])
     "posts/1" 1 (FetchResult.response 200 (Body.decodable [("name", "Ann")]))
     (FetchResult.networkError "down") [("name", "Ann")] "down"
     rfl rfl (by decide) rfl rfl⟩

/-- **C3 (counterexample).** A redirect-range status such as 301 is below
400 yet its completion is a failure: the code tests `res.ok` (the 2xx
range), not "status ≥ 400". -/
theorem non_2xx_below_400_still_fails :
    statusOf (step (Event.complete 1 (FetchResult.response 301 (Body.decodable [])))
        (initState "users/1")) = Status.Failed ∧
    (step (Event.complete 1 (FetchResult.response 301 (Body.decodable [])))
        (initState "users/1")).error = some "HTTP 301" ∧
    301 < 400 := by
  exact ⟨rfl, rfl, by decide⟩

/-- **C3 (amended).** A current-generation completion signals `Failed`
exactly when the response status is outside the 2xx range (`res.ok`
false), a network error is thrown/rejected, or an ok response's body
fails to decode; an HTTP-status failure carries the message
`"HTTP <status>"`, which contains the status code — in particular a 404
response ends `Failed` with a message containing `"404"` — while a
network error and a decode failure record their own messages. -/
theorem failed_iff_not_ok (url : String) (t : List Event) (g : Nat)
    (r : FetchResult) (st st2 : Nat) (b : Body) (m m2 : String)
    (hload : (reach url t).loading = true) (hg : g = (reach url t).runGen)
    (hst : resOk st = false) (hok2 : resOk st2 = true) :
    (statusOf (step (.complete g r) (reach url t)) = .Failed ↔
      specFailsAmended r = true) ∧
    ((step (.complete g (.response st b)) (reach url t)).error =
        some ("HTTP " ++ toString st) ∧
     containsSub ("HTTP " ++ toString st) (toString st) = true) ∧
    (step (.complete g (.networkError m)) (reach url t)).error = some m ∧
    (step (.complete g (.response st2 (.undecodable m2))) (reach url t)).error
      = some m2 := by
  have herr : (reach url t).error = none := loadingClean_reach url t hload
  have hstep : ∀ r' : FetchResult,
      step (.complete g r') (reach url t) = applyResult r' (reach url t) := by
    intro r'
    simp only [step]
    rw [if_pos hg]
  refine ⟨?_, ?_, ?_, ?_⟩
  · rw [hstep r]
    cases r with
    | networkError m' =>
      have h := applyResult_err (reach url t) (.networkError m') m' rfl
      simp [h.1, specFailsAmended]
    | response st' b' =>
      by_cases hok : resOk st' = true
      · cases b' with
        | decodable p =>
          have hs : settle (.response st' (.decodable p)) = .ok p := by
            simp [settle, hok]
          have h := applyResult_ok (reach url t) _ p herr hs
          simp [h.1, specFailsAmended, hok]
        | undecodable m' =>
          have hs : settle (.response st' (.undecodable m')) = .error m' := by
            simp [settle, hok]
          have h := applyResult_err (reach url t) _ m' hs
          simp [h.1, specFailsAmended, hok]
      · rw [Bool.not_eq_true] at hok
        have hs : settle (.response st' b') = .error ("HTTP " ++ toString st') := by
          simp [settle, hok]
        have h := applyResult_err (reach url t) _ _ hs
        simp [h.1, specFailsAmended, hok]
  · rw [hstep (.response st b)]
    have hs : settle (.response st b) = .error ("HTTP " ++ toString st) := by
      simp [settle, hst]
    have h := applyResult_err (reach url t) _ _ hs
    exact ⟨h.2.2, containsSub_append "HTTP " (toString st)⟩
  · rw [hstep (.networkError m)]
    exact (applyResult_err (reach url t) (.networkError m) m rfl).2.2
  · rw [hstep (.response st2 (.undecodable m2))]
    have hs : settle (.response st2 (.undecodable m2)) = .error m2 := by
      simp [settle, hok2]
    exact (applyResult_err (reach url t) _ m2 hs).2.2

/-- Witness for the amended C3: the 404 scenario, plus a network error
and a decode failure recording their messages. -/
theorem failed_iff_not_ok_witness :
    ((reach "users/1" []).loading = true ∧ 1 = (reach "users/1" []).runGen ∧
     resOk 404 = false ∧ resOk 200 = true) ∧
    ((statusOf (step (.complete 1 (FetchResult.response 404 (Body.decodable [])))
          (reach "users/1" [])) = .Failed ↔
        specFailsAmended (FetchResult.response 404 (Body.decodable [])) = true) ∧
     ((step (.complete 1 (FetchResult.response 404 (Body.decodable [])))
          (reach "users/1" [])).error = some ("HTTP " ++ toString 404) ∧
      containsSub ("HTTP " ++ toString 404) (toString 404) = true) ∧
     (step (.complete 1 (FetchResult.networkError "network down"))
          (reach "users/1" [])).error = some "network down" ∧
     (step (.complete 1 (FetchResult.response 200 (Body.undecodable "bad json")))
          (reach "users/1" [])).error = some "bad json") :=
  ⟨⟨rfl, rfl, by decide, by decide⟩,
   failed_iff_not_ok "users/1" [] 1 (FetchResult.response 404 (Body.decodable []))
     404 200 (Body.decodable []) "network down" "bad json"
     rfl rfl (by decide) (by decide)⟩

/-- **C4.** A current-generation completion with an ok status decodes the
body: decode failure transitions to `Failed`, decode success transitions
to `Succeeded` with `value` equal to the decoded payload. -/
theorem success_completion_decodes (url : String) (t : List Event) (g : Nat)
    (st : Nat) (m : String) (p : Payload)
    (hload : (reach url t).loading = true) (hg : g = (reach url t).runGen)
    (hok : resOk st = true) :
    statusOf (step (.complete g (.response st (.undecodable m))) (reach url t)) = .Failed ∧
    statusOf (step (.complete g (.response st (.decodable p))) (reach url t)) = .Succeeded ∧
    (step (.complete g (.response st (.decodable p))) (reach url t)).data = some p := by
  have herr : (reach url t).error = none := loadingClean_reach url t hload
  have hstep : ∀ r' : FetchResult,
      step (.complete g r') (reach url t) = applyResult r' (reach url t) := by
    intro r'
    simp only [step]
    rw [if_pos hg]
  have hs1 : settle (.response st (.undecodable m)) = .error m := by
    simp [settle, hok]
  have hs2 : settle (.response st (.decodable p)) = .ok p := by
    simp [settle, hok]
  have ha1 := applyResult_err (reach url t) _ m hs1
  have ha2 := applyResult_ok (reach url t) _ p herr hs2
  rw [hstep (.response st (.undecodable m)), hstep (.response st (.decodable p))]
  exact ⟨ha1.1, ha2.1, ha2.2.1⟩

/-- Witness for C4: the `users/1` scenario whose body decodes to the
object with field `name = "Ann"` ends `Succeeded` with that value. -/
theorem success_completion_decodes_witness :
    ((reach "users/1" []).loading = true ∧ 1 = (reach "users/1" []).runGen ∧
     resOk 200 = true) ∧
    (statusOf (step (.complete 1 (FetchResult.response 200 (Body.undecodable "bad json")))
        (reach "users/1" [])) = .Failed ∧
     statusOf (step (.complete 1 (FetchResult.response 200 (Body.decodable [("name", "Ann")])))
        (reach "users/1" [])) = .Succeeded ∧
     (step (.complete 1 (FetchResult.response 200 (Body.decodable [("name", "Ann")])))
        (reach "users/1" [])).data = some [("name", "Ann")]) :=
  ⟨⟨rfl, rfl, by decide⟩,
   success_completion_decodes "users/1" [] 1 200 "bad json" [("name", "Ann")]
     rfl rfl (by decide)⟩

/-! ## Claims about the status machine -/

/-- **C8 (counterexample).** A freshly created resource is already
`Pending`, not `Idle`: `loading` is initialised to `true`, both in the
raw initial state (before the first effect run) and after mounting. -/
theorem fresh_resource_pending_not_idle :
    statusOf { data := none, loading := true, error := none, reloadFlag := 0,
               url := "users/1", runGen := 0, issued := [] } = Status.Pending ∧
    statusOf (initState "users/1") = Status.Pending ∧
    Status.Pending ≠ Status.Idle := by
  exact ⟨rfl, rfl, by decide⟩

/-- **C8 (amended).** The status machine is `Pending -> Succeeded | Failed`:
a freshly created resource is already `Pending` (its `loading` cell is
initialised `true`); a current-generation completion moves a pending
resource to `Succeeded` or `Failed`; from any state — in particular from
`Succeeded` or `Failed` — both `retry()` and a key change return the
resource to `Pending`, so there is no terminal state; and no reachable
state is ever observed as `Idle`. -/
theorem status_machine_amended (url : String) (t t' : List Event) (u : String)
    (g : Nat) (r : FetchResult) (s : HookState)
    (hload : (reach url t).loading = true) (hg : g = (reach url t).runGen)
    (hu : u ≠ s.url) :
    statusOf (initState url) = .Pending ∧
    statusOf (step .refetch s) = .Pending ∧
    statusOf (step (.setUrl u) s) = .Pending ∧
    (statusOf (step (.complete g r) (reach url t)) = .Succeeded ∨
     statusOf (step (.complete g r) (reach url t)) = .Failed) ∧
    statusOf (reach url t') ≠ .Idle := by
  have herr : (reach url t).error = none := loadingClean_reach url t hload
  have hstep : step (.complete g r) (reach url t) = applyResult r (reach url t) := by
    simp only [step]
    rw [if_pos hg]
  refine ⟨rfl, rfl, ?_, ?_, statusOf_ne_idle _ (neverIdle_reach url t')⟩
  · simp only [step]
    rw [if_neg hu]
    rfl
  · rw [hstep]
    cases hs : settle r with
    | ok p => exact Or.inl (applyResult_ok (reach url t) r p herr hs).1
    | error m => exact Or.inr (applyResult_err (reach url t) r m hs).1

/-- Witness for the amended C8: a key change and a retry from a concrete
reachable `Failed` state both return to `Pending`, a completion resolves
a pending state, and a reachable state is not `Idle`. -/
theorem status_machine_amended_witness :
    ((reach "users/1" []).loading = true ∧ 1 = (reach "users/1" []).runGen ∧
     statusOf (reach "users/1" [Event.complete 1 (FetchResult.networkError "boom")])
       = .Failed ∧
     "posts/1" ≠ (reach "users/1" [Event.complete 1 (FetchResult.networkError "boom")]).url) ∧
    (statusOf (initState "users/1") = .Pending ∧
     statusOf (step .refetch
        (reach "users/1" [Event.complete 1 (FetchResult.networkError "boom")])) = .Pending ∧
     statusOf (step (.setUrl "posts/1")
        (reach "users/1" [Event.complete 1 (FetchResult.networkError "boom")])) = .Pending ∧
     (statusOf (step (.complete 1 (FetchResult.response 404 (Body.decodable [])))
          (reach "users/1" [])) = .Succeeded ∨
      statusOf (step (.complete 1 (FetchResult.response 404 (Body.decodable [])))
          (reach "users/1" [])) = .Failed) ∧
     statusOf (reach "users/1" [Event.complete 1 (FetchResult.networkError "boom")])
       ≠ .Idle) :=
  ⟨⟨rfl, rfl, rfl, by decide⟩,
   status_machine_amended "users/1" []
     [Event.complete 1 (FetchResult.networkError "boom")] "posts/1" 1
     (FetchResult.response 404 (Body.decodable []))
     (reach "users/1" [Event.complete 1 (FetchResult.networkError "boom")])
     rfl rfl (by decide)⟩

/-! ## Claims about the crash boundary -/

theorem renderMany_captured {α : Type} (s' : GuardState)
    (h' : s'.hasError = true) (xs : List (Except String α × String)) :
    (renderMany s' xs).1 = s' ∧
    (renderMany s' xs).2 =
      List.replicate xs.length (Rendered.fallback s'.error, false) := by
  induction xs with
  | nil => exact ⟨rfl, rfl⟩
  | cons x rest ih =>
    have hp : renderPass (α := α) s' x.1 x.2 = (s', .fallback s'.error, false) := by
      simp [renderPass, h']
    simp only [renderMany, hp]
    exact ⟨ih.1, by simp [List.replicate_succ, ih.2]⟩

/-- **C7.** Capture is one-shot and sticky: a crash raised while producing
the wrapped output of an uncaptured guard is caught by the guard itself,
which sets `captured`, records the failure detail (message and component
stack) and produces the fallback; and from any captured state, every
subsequent render pass leaves the state unchanged, produces the fallback
and never invokes the wrapped subtree. -/
theorem capture_one_shot_sticky {α : Type} (s s' : GuardState) (m stack : String)
    (xs : List (Except String α × String))
    (h : s.hasError = false) (h' : s'.hasError = true) :
    (renderPass s (Except.error (α := α) m) stack).1.hasError = true ∧
    (renderPass s (Except.error (α := α) m) stack).1.error = some m ∧
    (renderPass s (Except.error (α := α) m) stack).1.info = some stack ∧
    (renderPass s (Except.error (α := α) m) stack).2.1 = Rendered.fallback (some m) ∧
    (renderMany s' xs).1 = s' ∧
    (renderMany s' xs).2 =
      List.replicate xs.length (Rendered.fallback s'.error, false) := by
  have hcap := renderMany_captured s' h' xs
  refine ⟨?_, ?_, ?_, ?_, hcap.1, hcap.2⟩ <;>
    simp [renderPass, h, componentDidCatch, getDerivedStateFromError]

/-- Witness for C7: once the guard has captured a crash, 1000 further
render passes all yield the fallback and never invoke the subtree. -/
theorem capture_one_shot_sticky_witness :
    (guardInit.hasError = false ∧
     (renderPass guardInit (Except.error (α := Nat) "boom") "trace").1.hasError = true) ∧
    ((renderPass guardInit (Except.error (α := Nat) "boom") "trace").1.hasError = true ∧
     (renderPass guardInit (Except.error (α := Nat) "boom") "trace").1.error = some "boom" ∧
     (renderPass guardInit (Except.error (α := Nat) "boom") "trace").1.info = some "trace" ∧
     (renderPass guardInit (Except.error (α := Nat) "boom") "trace").2.1 =
       Rendered.fallback (some "boom") ∧
     (renderMany (renderPass guardInit (Except.error (α := Nat) "boom") "trace").1
        (List.replicate 1000 (Except.ok (0 : Nat), "x"))).1 =
       (renderPass guardInit (Except.error (α := Nat) "boom") "trace").1 ∧
     (renderMany (renderPass guardInit (Except.error (α := Nat) "boom") "trace").1
        (List.replicate 1000 (Except.ok (0 : Nat), "x"))).2 =
       List.replicate
         (List.replicate (α := Except String Nat × String) 1000 (Except.ok 0, "x")).length
         (Rendered.fallback
           (renderPass guardInit (Except.error (α := Nat) "boom") "trace").1.error,
          false)) :=
  ⟨⟨rfl, rfl⟩,
   capture_one_shot_sticky guardInit
     (renderPass guardInit (Except.error (α := Nat) "boom") "trace").1 "boom" "trace"
     (List.replicate 1000 (Except.ok (0 : Nat), "x")) rfl rfl⟩

/-- **C9.** When nothing has been captured and the wrapped subtree does
not crash, the guard is an identity pass-through: `render()` returns
exactly the wrapped children, the subtree is invoked, the state is
untouched and no fallback is shown. -/
theorem uncaptured_passthrough {α : Type} (s : GuardState) (v : α) (stack : String)
    (h : s.hasError = false) :
    render s v = Rendered.subtree v ∧
    renderPass s (Except.ok v) stack = (s, Rendered.subtree v, true) := by
  constructor
  · simp [render, h]
  · simp [renderPass, h]

/-- Witness for C9 at a concrete input. -/
theorem uncaptured_passthrough_witness :
    guardInit.hasError = false ∧
    (render guardInit (42 : Nat) = Rendered.subtree 42 ∧
     renderPass guardInit (Except.ok (42 : Nat)) "x" =
       (guardInit, Rendered.subtree 42, true)) :=
  ⟨rfl, uncaptured_passthrough guardInit 42 "x" rfl⟩

/-! ## Claims about the registration form -/

theorem validate_flags (v : FormValues)
    (h : v.username = "" ∨ emailTest v.email = false ∨ v.password.length < 6) :
    hasErrors (validate v) = true := by
  rcases h with h | h | h
  · simp [hasErrors, validate, h]
  · simp [hasErrors, validate, h]
  · simp [hasErrors, validate, h]

/-- **C10.** Whenever client-side validation finds at least one error
(empty username, email not matching the pattern, or password shorter than
6 characters), submitting records the field errors and returns without
calling `fakeRegister`, leaving `submitting`, `serverError`, `success`
and the field values unchanged. -/
theorem invalid_form_no_server_call (s : FormState)
    (h : s.values.username = "" ∨ emailTest s.values.email = false ∨
         s.values.password.length < 6) :
    (handleSubmit s).2 = false ∧
    (handleSubmit s).1.errors = validate s.values ∧
    (handleSubmit s).1.values = s.values ∧
    (handleSubmit s).1.submitting = s.submitting ∧
    (handleSubmit s).1.serverError = s.serverError ∧
    (handleSubmit s).1.success = s.success := by
  have hv := validate_flags s.values h
  simp only [handleSubmit, hv]
  simp

/-- Witness for C10: submitting the blank form calls no server operation
and changes nothing but the recorded errors. -/
theorem invalid_form_no_server_call_witness :
    (blankForm.values.username = "" ∨ emailTest blankForm.values.email = false ∨
     blankForm.values.password.length < 6) ∧
    ((handleSubmit blankForm).2 = false ∧
     (handleSubmit blankForm).1.errors = validate blankForm.values ∧
     (handleSubmit blankForm).1.values = blankForm.values ∧
     (handleSubmit blankForm).1.submitting = blankForm.submitting ∧
     (handleSubmit blankForm).1.serverError = blankForm.serverError ∧
     (handleSubmit blankForm).1.success = blankForm.success) :=
  ⟨Or.inl rfl, invalid_form_no_server_call blankForm (Or.inl rfl)⟩

end ErrorHandling
